import Mathlib

/-!
Verification of the Zscaler deck generator repository against its
natural-language specification.

Part 1 embeds the two concrete functions present in the source tree:
`is_valid_date` (src/app.py, lines 62-63) and `add_table_slide`
(src/generate_ppt.py, lines 37-49).

Part 2 models the template mail-merge engine described by the spec
(PlaceholderScanner, TextSubstitutionEngine, ImagePlaceholderResolver,
TableHeuristicMapper, MergeOrchestrator).  That engine is not present in
the source tree, so every definition of part 2 carries a doc comment
starting with "Modelled from the spec:".
-/

namespace ZDeck

/-! ### Part 1a: `is_valid_date` from src/app.py -/

/-- The shape matched by the regex body of the source pattern,
which the claim also describes: two ASCII digits, a slash, two ASCII
digits, a slash, four ASCII digits.  (Python `\d` additionally matches
non-ASCII Unicode decimal digits; the embedding models the ASCII
fragment, over which all the inputs of interest range.) -/
def ddmmyyyyShape : List Char → Bool
  | [a, b, s1, c, d, s2, e, f, g, h] =>
      a.isDigit && b.isDigit && (s1 == '/') && c.isDigit && d.isDigit &&
      (s2 == '/') && e.isDigit && f.isDigit && g.isDigit && h.isDigit
  | _ => false

/-- Embedding of `is_valid_date` (src/app.py line 62-63):
`bool(re.match(r'^\d{2}/\d{2}/\d{4}$', date_str))`.
`re.match` anchors at the start; the `$` anchor in Python (no MULTILINE
flag) matches at the end of the string or just before one trailing
newline, so a single trailing `'\n'` is also accepted. -/
def is_valid_date (s : String) : Bool :=
  ddmmyyyyShape s.data ||
    ((s.data.getLast? == some '\n') && ddmmyyyyShape s.data.dropLast)

/-- The claim's own predicate on whole strings: the string consists of
two digits, '/', two digits, '/', four digits and nothing else. -/
def claimC9Shape (s : String) : Bool := ddmmyyyyShape s.data

/-! ### Part 1b: `add_table_slide` from src/generate_ppt.py -/

/-- A python-pptx table (fixed row/column grid of text cells), as built
by `slide.shapes.add_table(rows, cols, ...)`.  Every cell starts empty. -/
structure PTable where
  nRows : Nat
  nCols : Nat
  cellText : Nat → Nat → String

/-- Embedding of `table.cell(r, c).text = v`: succeeds when the indices
are inside the grid, raises (modelled as `none`) otherwise. -/
def PTable.setText (t : PTable) (r c : Nat) (v : String) : Option PTable :=
  if r < t.nRows ∧ c < t.nCols then
    some ⟨t.nRows, t.nCols, fun i j => if i = r ∧ j = c then v else t.cellText i j⟩
  else none

/-- The loop `for i, h in enumerate(vals): table.cell(r, i).text = h`,
generalized to a starting column `c` for the recursion. -/
def writeRowFrom (t : PTable) (r c : Nat) : List String → Option PTable
  | [] => some t
  | v :: vs =>
    match t.setText r c v with
    | some t2 => writeRowFrom t2 r (c + 1) vs
    | none => none

/-- The loop `for r, row in enumerate(rows, 1): for c, val in
enumerate(row): table.cell(r, c).text = val`, generalized to a starting
row `r`. -/
def writeRowsFrom (t : PTable) (r : Nat) : List (List String) → Option PTable
  | [] => some t
  | row :: rest =>
    match writeRowFrom t r 0 row with
    | some t2 => writeRowsFrom t2 (r + 1) rest
    | none => none

/-- A slide holding a title and one table, as produced by
`add_table_slide` (the layout/geometry arguments are out of scope). -/
structure Slide where
  title : String
  table : PTable

/-- Embedding of `add_table_slide(title, headers, rows)`
(src/generate_ppt.py lines 37-49): adds one slide to the presentation,
creates a `(len(rows)+1) x len(headers)` table, writes the headers into
row 0 and `rows[r-1]` into row `r` (rows enumerated from 1). -/
def add_table_slide (prs : List Slide) (title : String)
    (headers : List String) (rows : List (List String)) : Option (List Slide) :=
  let t0 : PTable := ⟨rows.length + 1, headers.length, fun _ _ => ""⟩
  match writeRowFrom t0 0 0 headers with
  | none => none
  | some t1 =>
    match writeRowsFrom t1 1 rows with
    | none => none
    | some t2 => some (prs ++ [⟨title, t2⟩])

lemma setText_fields {t t2 : PTable} {r c : Nat} {v : String}
    (h : t.setText r c v = some t2) :
    t2.nRows = t.nRows ∧ t2.nCols = t.nCols ∧
      (∀ i j, ¬(i = r ∧ j = c) → t2.cellText i j = t.cellText i j) ∧
      t2.cellText r c = v := by
  unfold PTable.setText at h
  by_cases hb : r < t.nRows ∧ c < t.nCols
  · rw [if_pos hb] at h
    cases h
    refine ⟨rfl, rfl, ?_, ?_⟩
    · intro i j hij
      simp only [if_neg hij]
    · simp
  · rw [if_neg hb] at h
    cases h

lemma setText_ok {t : PTable} {r c : Nat} (v : String)
    (hr : r < t.nRows) (hc : c < t.nCols) :
    ∃ t2, t.setText r c v = some t2 := by
  unfold PTable.setText
  rw [if_pos ⟨hr, hc⟩]
  exact ⟨_, rfl⟩

lemma writeRowFrom_spec (vals : List String) :
    ∀ (t : PTable) (r c : Nat), r < t.nRows → c + vals.length ≤ t.nCols →
    ∃ t2, writeRowFrom t r c vals = some t2 ∧
      t2.nRows = t.nRows ∧ t2.nCols = t.nCols ∧
      (∀ i j, (i ≠ r ∨ j < c ∨ c + vals.length ≤ j) →
        t2.cellText i j = t.cellText i j) ∧
      (∀ k, (hk : k < vals.length) → t2.cellText r (c + k) = vals.get ⟨k, hk⟩) := by
  induction vals with
  | nil =>
    intro t r c _ _
    refine ⟨t, rfl, rfl, rfl, fun i j _ => rfl, ?_⟩
    intro k hk
    exact absurd hk (Nat.not_lt_zero k)
  | cons v vs ih =>
    intro t r c hr hc
    have hcc : c < t.nCols := by
      simp only [List.length_cons] at hc
      omega
    obtain ⟨t1, ht1⟩ := setText_ok v hr hcc
    obtain ⟨hR1, hC1, hpres1, hset1⟩ := setText_fields ht1
    have hr1 : r < t1.nRows := by rw [hR1]; exact hr
    have hc1 : (c + 1) + vs.length ≤ t1.nCols := by
      rw [hC1]
      simp only [List.length_cons] at hc
      omega
    obtain ⟨t2, ht2, hR2, hC2, hpres2, hset2⟩ := ih t1 r (c + 1) hr1 hc1
    refine ⟨t2, ?_, ?_, ?_, ?_, ?_⟩
    · unfold writeRowFrom
      rw [ht1]
      exact ht2
    · rw [hR2, hR1]
    · rw [hC2, hC1]
    · intro i j hij
      have hstep : t2.cellText i j = t1.cellText i j := by
        apply hpres2
        rcases hij with h1 | h2 | h3
        · exact Or.inl h1
        · exact Or.inr (Or.inl (by omega))
        · refine Or.inr (Or.inr ?_)
          simp only [List.length_cons] at h3
          omega
      rw [hstep]
      apply hpres1
      rintro ⟨rfl, rfl⟩
      rcases hij with h1 | h2 | h3
      · exact h1 rfl
      · omega
      · simp only [List.length_cons] at h3
        omega
    · intro k hk
      cases k with
      | zero =>
        have hgot : t2.cellText r c = t1.cellText r c := by
          apply hpres2
          exact Or.inr (Or.inl (by omega))
        simpa [hgot] using hset1
      | succ k2 =>
        have hk2 : k2 < vs.length := by
          simp only [List.length_cons] at hk
          omega
        have := hset2 k2 hk2
        have harith : c + (k2 + 1) = (c + 1) + k2 := by omega
        rw [harith]
        simpa using this

lemma writeRowsFrom_spec (rss : List (List String)) :
    ∀ (t : PTable) (r : Nat), r + rss.length ≤ t.nRows →
    (∀ row ∈ rss, row.length ≤ t.nCols) →
    ∃ t2, writeRowsFrom t r rss = some t2 ∧
      t2.nRows = t.nRows ∧ t2.nCols = t.nCols ∧
      (∀ i j, (i < r ∨ r + rss.length ≤ i) → t2.cellText i j = t.cellText i j) ∧
      (∀ k, (hk : k < rss.length) → ∀ c, (hc : c < (rss.get ⟨k, hk⟩).length) →
        t2.cellText (r + k) c = (rss.get ⟨k, hk⟩).get ⟨c, hc⟩) := by
  induction rss with
  | nil =>
    intro t r _ _
    refine ⟨t, rfl, rfl, rfl, fun i j _ => rfl, ?_⟩
    intro k hk
    exact absurd hk (Nat.not_lt_zero k)
  | cons row rest ih =>
    intro t r hr hc
    have hrr : r < t.nRows := by
      simp only [List.length_cons] at hr
      omega
    have hrow : 0 + row.length ≤ t.nCols := by
      simpa using hc row (by simp)
    obtain ⟨t1, ht1, hR1, hC1, hpres1, hset1⟩ := writeRowFrom_spec row t r 0 hrr hrow
    have hr1 : (r + 1) + rest.length ≤ t1.nRows := by
      rw [hR1]
      simp only [List.length_cons] at hr
      omega
    have hc1 : ∀ rw2 ∈ rest, rw2.length ≤ t1.nCols := by
      intro rw2 hm
      rw [hC1]
      exact hc rw2 (by simp [hm])
    obtain ⟨t2, ht2, hR2, hC2, hpres2, hset2⟩ := ih t1 (r + 1) hr1 hc1
    refine ⟨t2, ?_, ?_, ?_, ?_, ?_⟩
    · unfold writeRowsFrom
      rw [ht1]
      exact ht2
    · rw [hR2, hR1]
    · rw [hC2, hC1]
    · intro i j hij
      have hstep : t2.cellText i j = t1.cellText i j := by
        apply hpres2
        rcases hij with h1 | h2
        · exact Or.inl (by omega)
        · simp only [List.length_cons] at h2
          exact Or.inr (by omega)
      rw [hstep]
      apply hpres1
      left
      rcases hij with h1 | h2
      · omega
      · simp only [List.length_cons] at h2
        omega
    · intro k hk c hcv
      cases k with
      | zero =>
        have hgot : t2.cellText (r + 0) c = t1.cellText (r + 0) c := by
          apply hpres2
          exact Or.inl (by omega)
        rw [hgot]
        simp only [Nat.add_zero]
        have := hset1 c (by simpa using hcv)
        simpa using this
      | succ k2 =>
        have hk2 : k2 < rest.length := by
          simp only [List.length_cons] at hk
          omega
        have := hset2 k2 hk2 c (by simpa using hcv)
        have harith : r + (k2 + 1) = (r + 1) + k2 := by omega
        rw [harith]
        simpa using this

/-- C10: for every title, header list `hs` and row list `rs` in which
every row has length at most `len(hs)`, `add_table_slide` adds exactly
one slide to the presentation; the slide's table has `len(rs) + 1` rows
and `len(hs)` columns, cell `(0, i)` holds `hs[i]` and cell `(r+1, c)`
holds `rs[r][c]`, in the given order. -/
theorem claim_C10 (prs : List Slide) (title : String)
    (hs : List String) (rs : List (List String))
    (h : ∀ row ∈ rs, row.length ≤ hs.length) :
    ∃ t : PTable, add_table_slide prs title hs rs = some (prs ++ [⟨title, t⟩]) ∧
      t.nRows = rs.length + 1 ∧ t.nCols = hs.length ∧
      (∀ i, (hi : i < hs.length) → t.cellText 0 i = hs.get ⟨i, hi⟩) ∧
      (∀ r, (hr : r < rs.length) → ∀ c, (hc : c < (rs.get ⟨r, hr⟩).length) →
        t.cellText (r + 1) c = (rs.get ⟨r, hr⟩).get ⟨c, hc⟩) := by
  have h0r : 0 < rs.length + 1 := Nat.succ_pos _
  have h0c : 0 + hs.length ≤ hs.length := by omega
  obtain ⟨t1, ht1, hR1, hC1, _, hset1⟩ :=
    writeRowFrom_spec hs ⟨rs.length + 1, hs.length, fun _ _ => ""⟩ 0 0 h0r h0c
  have hR1b : t1.nRows = rs.length + 1 := hR1
  have hC1b : t1.nCols = hs.length := hC1
  have hr1 : 1 + rs.length ≤ t1.nRows := by rw [hR1b]; omega
  have hc1 : ∀ row ∈ rs, row.length ≤ t1.nCols := by
    intro row hm
    rw [hC1b]
    exact h row hm
  obtain ⟨t2, ht2, hR2, hC2, hpres2, hset2⟩ := writeRowsFrom_spec rs t1 1 hr1 hc1
  refine ⟨t2, ?_, ?_, ?_, ?_, ?_⟩
  · unfold add_table_slide
    simp only [ht1, ht2]
  · rw [hR2, hR1b]
  · rw [hC2, hC1b]
  · intro i hi
    have hgot : t2.cellText 0 i = t1.cellText 0 i := hpres2 0 i (Or.inl Nat.zero_lt_one)
    rw [hgot]
    have := hset1 i hi
    simpa using this
  · intro r hr c hc2
    have := hset2 r hr c hc2
    have harith : 1 + r = r + 1 := by omega
    rw [harith] at this
    exact this

/-- Concrete instantiation of C10: a 2-column header with two data rows
(the second shorter than the header), checked end to end. -/
theorem claim_C10_witness :
    (∀ row ∈ [["x", "y"], ["z"]], row.length ≤ (["a", "b"] : List String).length) ∧
    ∃ t : PTable,
      add_table_slide [] "T" ["a", "b"] [["x", "y"], ["z"]] = some ([] ++ [⟨"T", t⟩]) ∧
      t.nRows = [["x", "y"], ["z"]].length + 1 ∧ t.nCols = (["a", "b"] : List String).length ∧
      (∀ i, (hi : i < (["a", "b"] : List String).length) →
        t.cellText 0 i = (["a", "b"] : List String).get ⟨i, hi⟩) ∧
      (∀ r, (hr : r < ([["x", "y"], ["z"]] : List (List String)).length) →
        ∀ c, (hc : c < (([["x", "y"], ["z"]] : List (List String)).get ⟨r, hr⟩).length) →
        t.cellText (r + 1) c = (([["x", "y"], ["z"]] : List (List String)).get ⟨r, hr⟩).get ⟨c, hc⟩) :=
  ⟨by decide, claim_C10 [] "T" ["a", "b"] [["x", "y"], ["z"]] (by decide)⟩

lemma eq_dropLast_append_of_getLast? {l : List Char} {c : Char}
    (h : l.getLast? = some c) : l = l.dropLast ++ [c] := by
  have hne : l ≠ [] := by rintro rfl; simp at h
  have h2 := List.dropLast_append_getLast hne
  rw [List.getLast?_eq_getLast l hne] at h
  rw [Option.some.injEq] at h
  rw [h] at h2
  exact h2.symm

/-- C9 as literally stated is false on the code: because the Python `$`
anchor also matches just before one trailing newline, the source's
`is_valid_date` accepts a well-shaped date followed by a single `'\n'`,
which is not "two digits, '/', two digits, '/', four digits and nothing
else". -/
theorem claim_C9_cex :
    is_valid_date "14/11/2025\n" = true ∧ claimC9Shape "14/11/2025\n" = false := by
  decide

/-- C9 (amended): `is_valid_date s` returns `True` exactly when `s`, or
`s` with one trailing newline removed, consists of two digits, '/', two
digits, '/', four digits and nothing else; it performs no calendar
validation, so "99/99/9999" is accepted while "1/1/2025" and
"14/11/2025 " (trailing space) are rejected. -/
theorem claim_C9_amended :
    (∀ s : String, is_valid_date s = true ↔
      (claimC9Shape s = true ∨
        ∃ l : List Char, s.data = l ++ ['\n'] ∧ ddmmyyyyShape l = true)) ∧
    is_valid_date "99/99/9999" = true ∧
    is_valid_date "1/1/2025" = false ∧
    is_valid_date "14/11/2025 " = false := by
  refine ⟨?_, by decide, by decide, by decide⟩
  intro s
  unfold is_valid_date claimC9Shape
  constructor
  · intro h
    rw [Bool.or_eq_true] at h
    rcases h with h | h
    · exact Or.inl h
    · right
      rw [Bool.and_eq_true] at h
      obtain ⟨hlast, hshape⟩ := h
      have hlast2 : s.data.getLast? = some '\n' := by
        simpa using hlast
      exact ⟨s.data.dropLast, eq_dropLast_append_of_getLast? hlast2, hshape⟩
  · intro h
    rw [Bool.or_eq_true]
    rcases h with h | h
    · exact Or.inl h
    · obtain ⟨l, hdata, hshape⟩ := h
      right
      rw [Bool.and_eq_true, hdata]
      constructor
      · simp
      · simpa using hshape

/-! ### Part 2: the template mail-merge engine, modelled from the spec

The spec (sections 2-4) describes PlaceholderScanner,
TextSubstitutionEngine, ImagePlaceholderResolver, TableHeuristicMapper
and MergeOrchestrator.  None of that code is present under src/ (the
source tree holds only the interactive form and hardcoded deck
construction, which the spec scopes out), so the engine is modelled
from the spec's own words here. -/

/-- Modelled from the spec: ASCII whitespace, for the trimmed sentinel
comparison and header normalization. -/
def isWs (c : Char) : Bool :=
  c == ' ' || c == '\t' || c == '\n' || c == '\r' || c == '\x0b' || c == '\x0c'

/-- Modelled from the spec: trim leading and trailing whitespace. -/
def trimChars (l : List Char) : List Char :=
  ((l.dropWhile isWs).reverse.dropWhile isWs).reverse

/-- Modelled from the spec: trimmed form of a string. -/
def trimStr (s : String) : String := ⟨trimChars s.data⟩

/-- Modelled from the spec: ASCII lower-casing of one character. -/
def lowerChar (c : Char) : Char :=
  if 'A' ≤ c && c ≤ 'Z' then Char.ofNat (c.toNat + 32) else c

/-- Modelled from the spec: ASCII lower-casing of a string (used on
header cells before keyword matching). -/
def lowerStr (s : String) : String := ⟨s.data.map lowerChar⟩

/-- Modelled from the spec: substring containment test used by the
table classifier's keyword predicates. -/
def strContains (s pat : String) : Bool :=
  (s.data.tails.any (fun t => pat.data.isPrefixOf t))

/-- Modelled from the spec: literal substring replacement (all
non-overlapping occurrences, leftmost first), fuel-indexed so it
reduces in the kernel.  Fuel `l.length` is enough because every step
consumes at least one character of the working list. -/
def listReplaceAux (pat rep : List Char) : Nat → List Char → List Char
  | 0, l => l
  | _ + 1, [] => []
  | fuel + 1, c :: rest =>
    if pat.isPrefixOf (c :: rest) then
      rep ++ listReplaceAux pat rep fuel ((c :: rest).drop pat.length)
    else
      c :: listReplaceAux pat rep fuel rest

/-- Modelled from the spec: `s.replace(pat, rep)` for a non-empty
pattern (every token key carries its double-brace delimiters, so the
empty-pattern case never arises; it is the identity here). -/
def strReplace (s pat rep : String) : String :=
  if pat.data.isEmpty then s else ⟨listReplaceAux pat.data rep.data s.data.length s.data⟩

/-- A token-to-value mapping, ordered as supplied by the caller. -/
abbrev Mapping := List (String × String)

/-- Modelled from the spec: apply every `(token, value)` pair of the
mapping as a literal substring replace, in mapping order. -/
def applyMapping (m : Mapping) (s : String) : String :=
  m.foldl (fun acc kv => strReplace acc kv.1 kv.2) s

/-- Modelled from the spec: a run is the smallest unit of text carrying
independent formatting attributes, all optional/inherited. -/
structure Run where
  text : String
  font : Option String
  size : Option Nat
  bold : Option Bool
  italic : Option Bool
  color : Option (Nat × Nat × Nat)
deriving DecidableEq

/-- A paragraph is an ordered sequence of runs. -/
abbrev Paragraph := List Run

/-- A rich-text container is an ordered sequence of paragraphs. -/
abbrev RichText := List Paragraph

/-- The non-text formatting attributes of a run. -/
def runStyle (r : Run) : Option String × Option Nat × Option Bool × Option Bool ×
    Option (Nat × Nat × Nat) :=
  (r.font, r.size, r.bold, r.italic, r.color)

/-- Modelled from the spec: the concatenated text of a paragraph. -/
def paragraphText (p : Paragraph) : String := String.join (p.map Run.text)

/-- Modelled from the spec: the concatenated text of a rich-text
container. -/
def richTextText (rt : RichText) : String := String.join (rt.map paragraphText)

/-! #### TextSubstitutionEngine (spec section 4.2) -/

/-- Modelled from the spec: per-run mode — substring replacement within
each run independently, leaving every other attribute of the run
untouched. -/
def perRunSub (m : Mapping) (p : Paragraph) : Paragraph :=
  p.map (fun r => ⟨applyMapping m r.text, r.font, r.size, r.bold, r.italic, r.color⟩)

/-- Modelled from the spec: a single run carrying the given text and the
first original run's formatting attributes if any run existed, else
default (all-inherited) formatting. -/
def firstRunStyled (p : Paragraph) (txt : String) : Run :=
  match p with
  | r :: _ => ⟨txt, r.font, r.size, r.bold, r.italic, r.color⟩
  | [] => ⟨txt, none, none, none, none, none⟩

/-- Modelled from the spec: substitution over one paragraph.  Per-run
mode is used when the per-run result agrees with whole-text replacement
at the paragraph level (no token crosses a run boundary); otherwise the
original run structure is discarded and a single run is rebuilt from
the whole-text replacement, inheriting the first original run's
attributes. -/
def substParagraph (m : Mapping) (p : Paragraph) : Paragraph :=
  let whole := applyMapping m (paragraphText p)
  let pr := perRunSub m p
  if paragraphText pr = whole then pr else [firstRunStyled p whole]

/-- Modelled from the spec: `substitute(richText, mapping)`, applied
paragraph by paragraph. -/
def substitute (rt : RichText) (m : Mapping) : RichText :=
  rt.map (substParagraph m)

/-! #### PlaceholderScanner (spec sections 3, 4.1) -/

/-- Modelled from the spec: the token-body alphabet `[A-Z0-9_-]`. -/
def isTokenChar (c : Char) : Bool :=
  ('A' ≤ c && c ≤ 'Z') || ('0' ≤ c && c ≤ '9') || c == '_' || c == '-'

/-- A token body wrapped in its double-brace delimiters. -/
def mkTok (body : List Char) : String :=
  ⟨'\x7b' :: '\x7b' :: (body ++ ['\x7d', '\x7d'])⟩

/-- Modelled from the spec: left-to-right scan for the token rule
(open braces, one-or-more token characters, close braces), advancing
one character on a failed match, fuel-indexed by the text length. -/
def findTokensAux : Nat → List Char → List String
  | 0, _ => []
  | _ + 1, [] => []
  | fuel + 1, '\x7b' :: '\x7b' :: rest =>
    (match rest.dropWhile isTokenChar with
     | '\x7d' :: '\x7d' :: rest2 =>
       if (rest.takeWhile isTokenChar).isEmpty then
         findTokensAux fuel ('\x7b' :: rest)
       else
         mkTok (rest.takeWhile isTokenChar) :: findTokensAux fuel rest2
     | _ => findTokensAux fuel ('\x7b' :: rest))
  | fuel + 1, _ :: rest => findTokensAux fuel rest

/-- Modelled from the spec: all tokens occurring in one text blob. -/
def findTokens (s : String) : List String := findTokensAux s.data.length s.data

/-! #### Shapes, pages, documents (spec section 3) -/

/-- A shape geometry record: left, top, width, height. -/
structure Geometry where
  left : Int
  top : Int
  width : Int
  height : Int
deriving DecidableEq

/-- Modelled from the spec: a table shape is a grid of cells, each cell
owning one rich-text container; the first row is the header row. -/
structure TableShape where
  cells : List (List RichText)
deriving DecidableEq

/-- How an image shape was placed: loaded with the document, or
inserted by the resolver at one of its three fidelity levels (exact
box, width fixed with automatic height, position only). -/
inductive PlaceMode where
  | preExisting
  | exactBox
  | widthOnly
  | positionOnly
deriving DecidableEq

/-- Modelled from the spec: shapes are a tagged union of text, table,
image and generic variants, each carrying a geometry record. -/
inductive Shape where
  | text (geom : Geometry) (content : RichText)
  | table (geom : Geometry) (grid : TableShape)
  | image (geom : Geometry) (mode : PlaceMode)
  | generic (geom : Geometry)
deriving DecidableEq

/-- The geometry record of any shape. -/
def shapeGeom : Shape → Geometry
  | .text g _ => g
  | .table g _ => g
  | .image g _ => g
  | .generic g => g

/-- A page owns an ordered sequence of shapes. -/
abbrev Page := List Shape

/-- A document is an ordered sequence of pages. -/
abbrev Document := List Page

/-- The text of one table cell. -/
def cellText (c : RichText) : String := richTextText c

/-- Modelled from the spec: the text blobs a shape contributes to the
scan — the concatenated rich text for a text shape, every cell's text
for a table, nothing for image or generic shapes. -/
def shapeTextBlobs : Shape → List String
  | .text _ rt => [richTextText rt]
  | .table _ t => (t.cells.map (fun row => row.map cellText)).flatten
  | _ => []

/-- All tokens contributed by one shape. -/
def shapeTokens (s : Shape) : List String :=
  ((shapeTextBlobs s).map findTokens).flatten

/-- The shapes of a document in traversal order. -/
def docShapes (d : Document) : List Shape := d.flatten

/-- Modelled from the spec: `scan(document)` — the set of distinct
tokens found in text and table content, with no side effects. -/
def scan (d : Document) : Finset String :=
  ((docShapes d).map shapeTokens).flatten.toFinset

/-! #### ImagePlaceholderResolver (spec section 4.3) -/

/-- Modelled from the spec: the one reserved sentinel token. -/
def sentinelToken : String := "\x7b\x7bLOGO\x7d\x7d"

/-- Modelled from the spec: a shape triggers image substitution exactly
when its entire trimmed text equals the sentinel token. -/
def isSentinelShape (s : Shape) : Bool :=
  match s with
  | .text _ rt => trimStr (richTextText rt) == sentinelToken
  | _ => false

/-- Modelled from the spec: the opaque image payload. -/
structure Image where
  bytes : List Nat
deriving DecidableEq

/-- Whether each of the three graduated placement attempts raises when
tried (the placement primitive's behavior is environment-dependent, so
it enters the model as an oracle). -/
structure PlaceFaults where
  exactFails : Bool
  widthFails : Bool
  posFails : Bool

/-- Modelled from the spec: try exact box, then width-only, then
position-only; the first non-raising attempt wins, `none` if all three
raise. -/
def tryPlacements (o : PlaceFaults) : Option PlaceMode :=
  if o.exactFails = false then some PlaceMode.exactBox
  else if o.widthFails = false then some PlaceMode.widthOnly
  else if o.posFails = false then some PlaceMode.positionOnly
  else none

/-- Modelled from the spec: `resolve(page, shape, image) -> bool`.  The
shape is addressed by its index in the page; on success the sentinel
shape is removed and the image inserted at its bounding box (a
replacement at that position), on failure the page is left untouched. -/
def resolve (page : Page) (i : Nat) (img : Option Image) (o : PlaceFaults) :
    Page × Bool :=
  match page.get? i with
  | some s =>
    if isSentinelShape s && img.isSome then
      match tryPlacements o with
      | some mode => (page.set i (Shape.image (shapeGeom s) mode), true)
      | none => (page, false)
    else (page, false)
  | none => (page, false)

/-! #### TableHeuristicMapper (spec section 4.4) -/

/-- Modelled from the spec: the small fixed set of logical dataset
kinds a table can classify into. -/
inductive DatasetKind where
  | milestones
  | rollout
  | objectives
  | deliverables
  | openItems
  | contacts
deriving DecidableEq

/-- The lower-cased, trimmed header-row cell texts of a table. -/
def headerCells (t : TableShape) : List String :=
  (t.cells.headD []).map (fun c => trimStr (lowerStr (cellText c)))

/-- The concatenation of the header cell texts. -/
def headerConcat (t : TableShape) : String := String.join (headerCells t)

/-- Modelled from the spec: the ordered keyword predicates over
`(headerList, headerConcat)`; the first matching predicate wins. -/
def classifyHeaders (hs : List String) (hcat : String) : Option DatasetKind :=
  if strContains hcat "milestone" then some DatasetKind.milestones
  else if strContains hcat "target" && strContains hcat "current" then
    some DatasetKind.rollout
  else if strContains hcat "objective" then some DatasetKind.objectives
  else if strContains hcat "deliverable" then some DatasetKind.deliverables
  else if strContains hcat "task" || (hs.any (fun h => h == "owner")) then
    some DatasetKind.openItems
  else if strContains hcat "name" && strContains hcat "role" then
    some DatasetKind.contacts
  else none

/-- Classification of a table by its header row. -/
def classifyTable (t : TableShape) : Option DatasetKind :=
  classifyHeaders (headerCells t) (headerConcat t)

/-- Modelled from the spec: named collections of row-tuples, one per
dataset kind. -/
structure Datasets where
  milestones : Option (List (List String))
  rollout : Option (List (List String))
  objectives : Option (List (List String))
  deliverables : Option (List (List String))
  openItems : Option (List (List String))
  contacts : Option (List (List String))

/-- The dataset supplied for a kind, if any. -/
def datasetFor (ds : Datasets) : DatasetKind → Option (List (List String))
  | .milestones => ds.milestones
  | .rollout => ds.rollout
  | .objectives => ds.objectives
  | .deliverables => ds.deliverables
  | .openItems => ds.openItems
  | .contacts => ds.contacts

/-- A freshly written cell: one paragraph, one default-formatted run. -/
def mkCellRT (v : String) : RichText :=
  [[⟨v, none, none, none, none, none⟩]]

/-- A cell-write fault oracle: `flt r c = true` means the write to
table row `r`, column `c` raises. -/
abbrev CellFaults := Nat → Nat → Bool

/-- Modelled from the spec: overwrite the cells of table row `r` with
the supplied values (empty string where the supplied row is short),
starting at column `c`; a failing cell write is caught and skipped,
leaving that cell as it was, and counted. -/
def overwriteRowAux (flt : CellFaults) (r : Nat) (vals : List String) :
    Nat → List RichText → List RichText × Nat
  | _, [] => ([], 0)
  | c, cell :: rest =>
    let done := overwriteRowAux flt r vals (c + 1) rest
    if flt r c then (cell :: done.1, done.2 + 1)
    else (mkCellRT (vals.getD c "") :: done.1, done.2)

/-- Modelled from the spec: overwrite data rows pairwise — table row
`r + j` gets supplied row `j`; supplied rows beyond the table's rows
are dropped, table rows beyond the supplied data are left as-is.
Returns the new rows and the number of swallowed cell-write failures. -/
def fillDataRows (flt : CellFaults) :
    Nat → List (List RichText) → List (List String) →
    List (List RichText) × Nat
  | _, [], _ => ([], 0)
  | _, trow :: trest, [] => (trow :: trest, 0)
  | r, trow :: trest, drow :: drest =>
    let row2 := overwriteRowAux flt r drow 0 trow
    let rest2 := fillDataRows flt (r + 1) trest drest
    (row2.1 :: rest2.1, row2.2 + rest2.2)

/-- Modelled from the spec: `classifyAndFill(table, datasets)` —
classify by the header row, and when a non-empty dataset of that kind
was supplied, overwrite the data rows (table rows from index 1).
Returns the classification, the updated table and the count of
swallowed cell-write failures; a table matching no predicate or with an
absent/empty dataset is left completely untouched. -/
def classifyAndFill (flt : CellFaults) (t : TableShape) (ds : Datasets) :
    Option DatasetKind × TableShape × Nat :=
  match classifyTable t with
  | none => (none, t, 0)
  | some k =>
    match datasetFor ds k with
    | some (drow :: drest) =>
      match t.cells with
      | [] => (some k, t, 0)
      | header :: dataRows =>
        let filled := fillDataRows flt 1 dataRows (drow :: drest)
        (some k, ⟨header :: filled.1⟩, filled.2)
    | _ => (some k, t, 0)

/-! #### MergeOrchestrator (spec section 4.5) -/

/-- Modelled from the spec: the structural/fatal failure class — an
invalid document handle. -/
inductive MergeError where
  | invalidHandle
deriving DecidableEq

/-- Modelled from the spec: the merge report — counts, the image-swap
flag, swallowed per-element failure counters and the missing-token set
from the read-only pass. -/
structure MergeReport where
  shapesVisited : Nat
  substitutionsApplied : Nat
  tablesClassified : Nat
  imageSwapped : Bool
  cellFailures : Nat
  placementFailures : Nat
  missing : Finset String
deriving DecidableEq

/-- Pointwise combination of two reports. -/
def addReport (a b : MergeReport) : MergeReport :=
  ⟨a.shapesVisited + b.shapesVisited,
   a.substitutionsApplied + b.substitutionsApplied,
   a.tablesClassified + b.tablesClassified,
   a.imageSwapped || b.imageSwapped,
   a.cellFailures + b.cellFailures,
   a.placementFailures + b.placementFailures,
   a.missing ∪ b.missing⟩

/-- The per-element fault oracles threaded through a merge. -/
structure Faults where
  cellFail : CellFaults
  place : PlaceFaults

/-- Modelled from the spec: the mutation pass on one shape.  Tables go
to the TableHeuristicMapper (and are not also text-substituted); a
sentinel shape with an available image goes to the
ImagePlaceholderResolver; any other text-carrying shape goes to the
TextSubstitutionEngine; every per-element failure is counted, never
raised. -/
def mergeShape (m : Mapping) (img : Option Image) (ds : Datasets)
    (flt : Faults) (s : Shape) : Shape × MergeReport :=
  match s with
  | .table g t =>
    let res := classifyAndFill flt.cellFail t ds
    (.table g res.2.1,
     ⟨1, 0, if res.1.isSome then 1 else 0, false, res.2.2, 0, ∅⟩)
  | .text g rt =>
    if isSentinelShape (.text g rt) && img.isSome then
      match tryPlacements flt.place with
      | some mode => (.image g mode, ⟨1, 0, 0, true, 0, 0, ∅⟩)
      | none => (.text g rt, ⟨1, 0, 0, false, 0, 1, ∅⟩)
    else
      let rt2 := substitute rt m
      (.text g rt2, ⟨1, if rt2 = rt then 0 else 1, 0, false, 0, 0, ∅⟩)
  | .image g md => (.image g md, ⟨1, 0, 0, false, 0, 0, ∅⟩)
  | .generic g => (.generic g, ⟨1, 0, 0, false, 0, 0, ∅⟩)

/-- The mutation pass over one page. -/
def mergePage (m : Mapping) (img : Option Image) (ds : Datasets)
    (flt : Faults) : Page → Page × MergeReport
  | [] => ([], ⟨0, 0, 0, false, 0, 0, ∅⟩)
  | s :: rest =>
    let hd := mergeShape m img ds flt s
    let tl := mergePage m img ds flt rest
    (hd.1 :: tl.1, addReport hd.2 tl.2)

/-- The mutation pass over the whole document. -/
def mergeDoc (m : Mapping) (img : Option Image) (ds : Datasets)
    (flt : Faults) : Document → Document × MergeReport
  | [] => ([], ⟨0, 0, 0, false, 0, 0, ∅⟩)
  | pg :: rest =>
    let hd := mergePage m img ds flt pg
    let tl := mergeDoc m img ds flt rest
    (hd.1 :: tl.1, addReport hd.2 tl.2)

/-- Modelled from the spec: `merge(document, mapping, image?, datasets)`.
Pass 1 scans read-only for the missing-token set, pass 2 mutates shape
by shape; only an invalid document handle is surfaced as an error. -/
def merge (handle : Option Document) (m : Mapping) (img : Option Image)
    (ds : Datasets) (flt : Faults) :
    Except MergeError (Document × MergeReport) :=
  match handle with
  | none => Except.error MergeError.invalidHandle
  | some d =>
    let missing := scan d \ (m.map Prod.fst).toFinset
    let res := mergeDoc m img ds flt d
    Except.ok (res.1, ⟨res.2.shapesVisited, res.2.substitutionsApplied,
      res.2.tablesClassified, res.2.imageSwapped, res.2.cellFailures,
      res.2.placementFailures, missing⟩)

/-! ### Part 2 theorems -/

/-- C2: for every rich text in which no token's braces cross a run
boundary (operationally: per-run replacement agrees with whole-text
replacement on every paragraph) and every mapping, `substitute` applies
substring replacement within each run independently and leaves the
formatting attributes of every run bit-for-bit unchanged. -/
theorem claim_C2 (rt : RichText) (m : Mapping)
    (h : ∀ p ∈ rt, paragraphText (perRunSub m p) = applyMapping m (paragraphText p)) :
    substitute rt m = rt.map (perRunSub m) ∧
    (substitute rt m).map (List.map runStyle) = rt.map (List.map runStyle) := by
  have h1 : substitute rt m = rt.map (perRunSub m) := by
    unfold substitute
    apply List.map_congr_left
    intro p hp
    simp only [substParagraph]
    rw [if_pos (h p hp)]
  refine ⟨h1, ?_⟩
  rw [h1, List.map_map]
  apply List.map_congr_left
  intro p _
  simp only [Function.comp_apply, perRunSub, List.map_map]
  apply List.map_congr_left
  intro r _
  rfl

/-- The two-run paragraph of the C2 example: bold "Hello " and an
italic name token. -/
def c2Runs : Paragraph :=
  [⟨"Hello ", none, none, some true, none, none⟩,
   ⟨"\x7b\x7bNAME\x7d\x7d", none, none, none, some true, none⟩]

/-- The mapping of the C2 example. -/
def c2Map : Mapping := [("\x7b\x7bNAME\x7d\x7d", "World")]

/-- The C2 example checked end to end: per-run mode fires and yields
bold "Hello " and italic "World" with each run's attributes intact. -/
theorem claim_C2_witness :
    (∀ p ∈ ([c2Runs] : RichText),
      paragraphText (perRunSub c2Map p) = applyMapping c2Map (paragraphText p)) ∧
    substitute [c2Runs] c2Map = ([c2Runs] : RichText).map (perRunSub c2Map) ∧
    substitute [c2Runs] c2Map =
      [[⟨"Hello ", none, none, some true, none, none⟩,
        ⟨"World", none, none, none, some true, none⟩]] :=
  ⟨by decide, (claim_C2 [c2Runs] c2Map (by decide)).1, by decide⟩

/-- C5: `substitute` works paragraph by paragraph, and on any paragraph
where per-run replacement does not reach the whole-text replacement
result (a token's braces cross a run boundary), the paragraph is
rebuilt as a single run carrying the whole-text replacement, formatted
with the first original run's attributes (default formatting if no run
existed). -/
theorem claim_C5 :
    (∀ (rt : RichText) (m : Mapping), substitute rt m = rt.map (substParagraph m)) ∧
    (∀ (m : Mapping) (p : Paragraph),
      paragraphText (perRunSub m p) ≠ applyMapping m (paragraphText p) →
      substParagraph m p = [firstRunStyled p (applyMapping m (paragraphText p))]) := by
  refine ⟨fun rt m => rfl, ?_⟩
  intro m p h
  simp only [substParagraph]
  rw [if_neg h]

/-- The two runs of the C5 example: the token braces split as
"\x7b\x7bNA" (bold) and "ME\x7d\x7d" (italic). -/
def c5Runs : Paragraph :=
  [⟨"\x7b\x7bNA", none, none, some true, none, none⟩,
   ⟨"ME\x7d\x7d", none, none, none, some true, none⟩]

/-- The mapping of the C5 example. -/
def c5Map : Mapping := [("\x7b\x7bNAME\x7d\x7d", "World")]

/-- The C5 example checked end to end: whole-replace mode fires and
yields one run "World" carrying the first run's (bold) attributes. -/
theorem claim_C5_witness :
    paragraphText (perRunSub c5Map c5Runs) ≠ applyMapping c5Map (paragraphText c5Runs) ∧
    substParagraph c5Map c5Runs =
      [firstRunStyled c5Runs (applyMapping c5Map (paragraphText c5Runs))] ∧
    substParagraph c5Map c5Runs = [⟨"World", none, none, some true, none, none⟩] :=
  ⟨by decide, claim_C5.2 c5Map c5Runs (by decide), by decide⟩

/-- C4: `scan` is a pure function of the document (it returns only a
token set, never a modified document), so `scan d = scan d`, and its
result is independent of traversal order: any two documents holding the
same shapes in any arrangement scan to the same token set. -/
theorem claim_C4 :
    (∀ d : Document, scan d = scan d) ∧
    (∀ d d2 : Document, List.Perm (docShapes d) (docShapes d2) → scan d = scan d2) := by
  refine ⟨fun d => rfl, ?_⟩
  intro d d2 h
  unfold scan
  have h2 := ((h.map shapeTokens).flatten :
    List.Perm ((docShapes d).map shapeTokens).flatten
      ((docShapes d2).map shapeTokens).flatten)
  ext a
  simp only [List.mem_toFinset]
  exact h2.mem_iff

/-- A token-carrying text shape for the C4 witness. -/
def c4ShapeA : Shape :=
  Shape.text ⟨0, 0, 1, 1⟩ [[⟨"Hi \x7b\x7bA\x7d\x7d", none, none, none, none, none⟩]]

/-- A token-free shape for the C4 witness. -/
def c4ShapeB : Shape := Shape.generic ⟨0, 0, 2, 2⟩

/-- C4 at concrete documents: the same two shapes distributed
differently over pages scan to the same token set. -/
theorem claim_C4_witness :
    List.Perm (docShapes [[c4ShapeA, c4ShapeB]]) (docShapes [[c4ShapeB], [c4ShapeA]]) ∧
    scan [[c4ShapeA, c4ShapeB]] = scan [[c4ShapeB], [c4ShapeA]] :=
  ⟨by decide, claim_C4.2 [[c4ShapeA, c4ShapeB]] [[c4ShapeB], [c4ShapeA]] (by decide)⟩

lemma tryPlacements_eq_none_iff (o : PlaceFaults) :
    tryPlacements o = none ↔
      (o.exactFails = true ∧ o.widthFails = true ∧ o.posFails = true) := by
  rcases o with ⟨e, w, p⟩
  cases e <;> cases w <;> cases p <;> simp [tryPlacements]

/-- C3: for a sentinel-matching shape and an available image, `resolve`
fails exactly when all three placement attempts fail; on failure the
page (and so the document) is left unchanged, and on success the
original sentinel shape is removed, replaced in place by the image at
the shape's bounding box. -/
theorem claim_C3 (page : Page) (i : Nat) (s : Shape) (img : Option Image)
    (o : PlaceFaults) (hs : page.get? i = some s)
    (hsent : isSentinelShape s = true) (himg : img.isSome = true) :
    ((resolve page i img o).2 = false ↔
      (o.exactFails = true ∧ o.widthFails = true ∧ o.posFails = true)) ∧
    ((resolve page i img o).2 = false → (resolve page i img o).1 = page) ∧
    ((resolve page i img o).2 = true →
      ∃ mode, tryPlacements o = some mode ∧
        (resolve page i img o).1 = page.set i (Shape.image (shapeGeom s) mode)) := by
  have hres : resolve page i img o =
      (match tryPlacements o with
       | some mode => (page.set i (Shape.image (shapeGeom s) mode), true)
       | none => (page, false)) := by
    unfold resolve
    rw [hs]
    simp [hsent, himg]
  cases htp : tryPlacements o with
  | none =>
    rw [hres, htp]
    refine ⟨?_, fun _ => rfl, ?_⟩
    · simp only [true_iff]
      exact (tryPlacements_eq_none_iff o).mp htp
    · intro hfalse
      simp at hfalse
  | some mode =>
    rw [hres, htp]
    refine ⟨?_, ?_, ?_⟩
    · constructor
      · intro hfalse
        simp at hfalse
      · intro hall
        have := (tryPlacements_eq_none_iff o).mpr hall
        rw [htp] at this
        cases this
    · intro hfalse
      simp at hfalse
    · intro _
      exact ⟨mode, rfl, rfl⟩

/-- The sentinel shape used by the C3 witness. -/
def c3Shape : Shape :=
  Shape.text ⟨3, 4, 5, 6⟩
    [[⟨"  \x7b\x7bLOGO\x7d\x7d  ", none, none, none, none, none⟩]]

/-- C3 at a concrete page with all three placement attempts failing:
`resolve` reports failure and leaves the page untouched. -/
theorem claim_C3_witness :
    ((resolve [c3Shape] 0 (some ⟨[7]⟩) ⟨true, true, true⟩).2 = false ↔
      ((true : Bool) = true ∧ (true : Bool) = true ∧ (true : Bool) = true)) ∧
    ((resolve [c3Shape] 0 (some ⟨[7]⟩) ⟨true, true, true⟩).2 = false →
      (resolve [c3Shape] 0 (some ⟨[7]⟩) ⟨true, true, true⟩).1 = [c3Shape]) ∧
    ((resolve [c3Shape] 0 (some ⟨[7]⟩) ⟨true, true, true⟩).2 = true →
      ∃ mode, tryPlacements ⟨true, true, true⟩ = some mode ∧
        (resolve [c3Shape] 0 (some ⟨[7]⟩) ⟨true, true, true⟩).1 =
          [c3Shape].set 0 (Shape.image (shapeGeom c3Shape) mode)) :=
  claim_C3 [c3Shape] 0 c3Shape (some ⟨[7]⟩) ⟨true, true, true⟩
    (by decide) (by decide) (by decide)

/-- Concrete data for the C7 example conjuncts. -/
def emptyDatasets : Datasets := ⟨none, none, none, none, none, none⟩

/-- The all-healthy fault oracle. -/
def noFaults : Faults := ⟨fun _ _ => false, ⟨false, false, false⟩⟩

/-- C7: image substitution triggers exactly on an entire-trimmed-text
match with the sentinel token: the sentinel test is the trimmed
comparison, the orchestrator routes a matching shape (with an image
available) to the image resolver and every other text shape to plain
text substitution; "  \x7b\x7bLOGO\x7d\x7d  " is a sentinel while
"Our \x7b\x7bLOGO\x7d\x7d" is not and instead gets substituted. -/
theorem claim_C7 :
    (∀ (g : Geometry) (rt : RichText),
      isSentinelShape (Shape.text g rt) = (trimStr (richTextText rt) == sentinelToken)) ∧
    (∀ (m : Mapping) (img : Option Image) (ds : Datasets) (flt : Faults)
        (g : Geometry) (rt : RichText),
      (isSentinelShape (Shape.text g rt) && img.isSome) = true →
      (mergeShape m img ds flt (Shape.text g rt)).1 =
        (match tryPlacements flt.place with
         | some mode => Shape.image g mode
         | none => Shape.text g rt)) ∧
    (∀ (m : Mapping) (img : Option Image) (ds : Datasets) (flt : Faults)
        (g : Geometry) (rt : RichText),
      (isSentinelShape (Shape.text g rt) && img.isSome) = false →
      (mergeShape m img ds flt (Shape.text g rt)).1 = Shape.text g (substitute rt m)) ∧
    isSentinelShape (Shape.text ⟨0, 0, 1, 1⟩
      [[⟨"  \x7b\x7bLOGO\x7d\x7d  ", none, none, none, none, none⟩]]) = true ∧
    isSentinelShape (Shape.text ⟨0, 0, 1, 1⟩
      [[⟨"Our \x7b\x7bLOGO\x7d\x7d", none, none, none, none, none⟩]]) = false ∧
    (mergeShape [("\x7b\x7bLOGO\x7d\x7d", "Zscaler")] (some ⟨[7]⟩) emptyDatasets noFaults
        (Shape.text ⟨0, 0, 1, 1⟩
          [[⟨"Our \x7b\x7bLOGO\x7d\x7d", none, none, none, none, none⟩]])).1 =
      Shape.text ⟨0, 0, 1, 1⟩ [[⟨"Our Zscaler", none, none, none, none, none⟩]] := by
  refine ⟨fun g rt => rfl, ?_, ?_, by decide, by decide, by decide⟩
  · intro m img ds flt g rt h
    cases htp : tryPlacements flt.place <;>
      simp [mergeShape, h, htp]
  · intro m img ds flt g rt h
    simp [mergeShape, h]

/-- C7 exercised with hypotheses discharged at concrete shapes: the
sentinel shape is routed to image placement (and swapped, all attempts
healthy), while the non-sentinel shape is routed to substitution. -/
theorem claim_C7_witness :
    ((isSentinelShape (Shape.text ⟨3, 4, 5, 6⟩
        [[⟨" \x7b\x7bLOGO\x7d\x7d ", none, none, none, none, none⟩]]) &&
      (some (⟨[7]⟩ : Image)).isSome) = true ∧
     (mergeShape [] (some ⟨[7]⟩) emptyDatasets noFaults
        (Shape.text ⟨3, 4, 5, 6⟩
          [[⟨" \x7b\x7bLOGO\x7d\x7d ", none, none, none, none, none⟩]])).1 =
        (match tryPlacements noFaults.place with
         | some mode => Shape.image ⟨3, 4, 5, 6⟩ mode
         | none => Shape.text ⟨3, 4, 5, 6⟩
             [[⟨" \x7b\x7bLOGO\x7d\x7d ", none, none, none, none, none⟩]])) ∧
    ((isSentinelShape (Shape.text ⟨3, 4, 5, 6⟩
        [[⟨"Dear \x7b\x7bNAME\x7d\x7d", none, none, none, none, none⟩]]) &&
      (some (⟨[7]⟩ : Image)).isSome) = false ∧
     (mergeShape [("\x7b\x7bNAME\x7d\x7d", "Ada")] (some ⟨[7]⟩) emptyDatasets noFaults
        (Shape.text ⟨3, 4, 5, 6⟩
          [[⟨"Dear \x7b\x7bNAME\x7d\x7d", none, none, none, none, none⟩]])).1 =
        Shape.text ⟨3, 4, 5, 6⟩
          (substitute [[⟨"Dear \x7b\x7bNAME\x7d\x7d", none, none, none, none, none⟩]]
            [("\x7b\x7bNAME\x7d\x7d", "Ada")])) :=
  ⟨⟨by decide, claim_C7.2.1 [] (some ⟨[7]⟩) emptyDatasets noFaults ⟨3, 4, 5, 6⟩
      [[⟨" \x7b\x7bLOGO\x7d\x7d ", none, none, none, none, none⟩]] (by decide)⟩,
   ⟨by decide, claim_C7.2.2.1 [("\x7b\x7bNAME\x7d\x7d", "Ada")] (some ⟨[7]⟩)
      emptyDatasets noFaults ⟨3, 4, 5, 6⟩
      [[⟨"Dear \x7b\x7bNAME\x7d\x7d", none, none, none, none, none⟩]] (by decide)⟩⟩

lemma overwriteRowAux_length (flt : CellFaults) (r : Nat) (vals : List String) :
    ∀ (c : Nat) (trow : List RichText),
      ((overwriteRowAux flt r vals c trow).1).length = trow.length := by
  intro c trow
  induction trow generalizing c with
  | nil => rfl
  | cons cell rest ih =>
    simp only [overwriteRowAux]
    by_cases hf : flt r c <;> simp [hf, ih]

lemma fillDataRows_colCounts (flt : CellFaults) :
    ∀ (r : Nat) (trows : List (List RichText)) (drows : List (List String)),
      ((fillDataRows flt r trows drows).1).map List.length = trows.map List.length := by
  intro r trows
  induction trows generalizing r with
  | nil => intro drows; cases drows <;> rfl
  | cons trow trest ih =>
    intro drows
    cases drows with
    | nil => rfl
    | cons drow drest =>
      simp only [fillDataRows, List.map_cons]
      rw [overwriteRowAux_length, ih]

lemma fillDataRows_length (flt : CellFaults) (r : Nat)
    (trows : List (List RichText)) (drows : List (List String)) :
    ((fillDataRows flt r trows drows).1).length = trows.length := by
  have h := congrArg List.length (fillDataRows_colCounts flt r trows drows)
  simpa using h

lemma classifyAndFill_dims (flt : CellFaults) (t : TableShape) (ds : Datasets) :
    ((classifyAndFill flt t ds).2.1).cells.length = t.cells.length ∧
    ((classifyAndFill flt t ds).2.1).cells.map List.length =
      t.cells.map List.length := by
  unfold classifyAndFill
  split
  · exact ⟨rfl, rfl⟩
  · split
    · split
      · exact ⟨rfl, rfl⟩
      · rename_i k drow drest heq header dataRows hcells
        rw [hcells]
        constructor
        · simp [fillDataRows_length]
        · simp [fillDataRows_colCounts]
    · exact ⟨rfl, rfl⟩

/-- The row count and per-row column counts of a table shape (`none`
for non-table shapes). -/
def tableDimsShape : Shape → Option (Nat × List Nat)
  | .table _ t => some (t.cells.length, t.cells.map List.length)
  | _ => none

/-- The dimensions of every table in a document, in traversal order. -/
def docTableDims (d : Document) : List (Nat × List Nat) :=
  (docShapes d).filterMap tableDimsShape

lemma mergeShape_tableDims (m : Mapping) (img : Option Image) (ds : Datasets)
    (flt : Faults) (s : Shape) :
    tableDimsShape (mergeShape m img ds flt s).1 = tableDimsShape s := by
  cases s with
  | table g t =>
    simp only [mergeShape, tableDimsShape]
    rw [(classifyAndFill_dims flt.cellFail t ds).1,
        (classifyAndFill_dims flt.cellFail t ds).2]
  | text g rt =>
    simp only [mergeShape]
    by_cases h : (isSentinelShape (Shape.text g rt) && img.isSome) = true
    · rw [if_pos h]
      cases htp : tryPlacements flt.place <;> simp [tableDimsShape]
    · rw [if_neg h]
      rfl
  | image g md => rfl
  | generic g => rfl

lemma mergePage_shapes (m : Mapping) (img : Option Image) (ds : Datasets)
    (flt : Faults) :
    ∀ pg : Page, (mergePage m img ds flt pg).1 =
      pg.map (fun s => (mergeShape m img ds flt s).1) := by
  intro pg
  induction pg with
  | nil => rfl
  | cons s rest ih => simp [mergePage, ih]

lemma mergeDoc_docShapes (m : Mapping) (img : Option Image) (ds : Datasets)
    (flt : Faults) :
    ∀ d : Document, docShapes (mergeDoc m img ds flt d).1 =
      (docShapes d).map (fun s => (mergeShape m img ds flt s).1) := by
  intro d
  induction d with
  | nil => rfl
  | cons pg rest ih =>
    simp only [mergeDoc, docShapes, List.flatten_cons, List.map_append]
    rw [mergePage_shapes]
    have ih2 : (mergeDoc m img ds flt rest).1.flatten =
        rest.flatten.map (fun s => (mergeShape m img ds flt s).1) := ih
    rw [ih2]

lemma filterMap_tableDims_merged (m : Mapping) (img : Option Image)
    (ds : Datasets) (flt : Faults) :
    ∀ l : List Shape,
      (l.map (fun s => (mergeShape m img ds flt s).1)).filterMap tableDimsShape =
        l.filterMap tableDimsShape := by
  intro l
  induction l with
  | nil => rfl
  | cons s rest ih =>
    simp only [List.map_cons, List.filterMap_cons]
    rw [mergeShape_tableDims, ih]

/-- C1: `classifyAndFill` never changes a table's row count or any
row's column count, whatever the dataset and fault pattern; and over a
whole merge, the table dimensions of the document are preserved
table-for-table. -/
theorem claim_C1 :
    (∀ (flt : CellFaults) (t : TableShape) (ds : Datasets),
      ((classifyAndFill flt t ds).2.1).cells.length = t.cells.length ∧
      ((classifyAndFill flt t ds).2.1).cells.map List.length =
        t.cells.map List.length) ∧
    (∀ (d : Document) (m : Mapping) (img : Option Image) (ds : Datasets)
        (flt : Faults),
      Except.map (fun out => docTableDims out.1) (merge (some d) m img ds flt) =
        Except.ok (docTableDims d)) := by
  refine ⟨fun flt t ds => classifyAndFill_dims flt t ds, ?_⟩
  intro d m img ds flt
  show Except.ok (docTableDims (mergeDoc m img ds flt d).1) = Except.ok (docTableDims d)
  unfold docTableDims
  rw [mergeDoc_docShapes, filterMap_tableDims_merged]

lemma overwriteRowAux_noFault_get (r : Nat) (vals : List String) :
    ∀ (c : Nat) (trow : List RichText) (j : Nat), j < trow.length →
      ((overwriteRowAux (fun _ _ => false) r vals c trow).1).getD j [] =
        mkCellRT (vals.getD (c + j) "") := by
  intro c trow
  induction trow generalizing c with
  | nil =>
    intro j hj
    exact absurd hj (Nat.not_lt_zero j)
  | cons cell rest ih =>
    intro j hj
    simp only [overwriteRowAux, if_neg (by simp : ¬((fun _ _ => false) r c = true))]
    cases j with
    | zero => simp
    | succ j2 =>
      simp only [List.getD_cons_succ]
      have hj2 : j2 < rest.length := by
        simp only [List.length_cons] at hj
        omega
      have := ih (c + 1) j2 hj2
      have harith : c + (j2 + 1) = (c + 1) + j2 := by omega
      rw [harith]
      exact this

lemma fillDataRows_noFault_cellVal :
    ∀ (r0 : Nat) (trows : List (List RichText)) (drows : List (List String))
      (j c : Nat), j < trows.length → j < drows.length →
      c < (trows.getD j []).length →
      (((fillDataRows (fun _ _ => false) r0 trows drows).1).getD j []).getD c [] =
        mkCellRT ((drows.getD j []).getD c "") := by
  intro r0 trows
  induction trows generalizing r0 with
  | nil =>
    intro drows j c hj
    exact absurd hj (Nat.not_lt_zero j)
  | cons trow trest ih =>
    intro drows j c hj hd hc
    cases drows with
    | nil => exact absurd hd (Nat.not_lt_zero j)
    | cons drow drest =>
      cases j with
      | zero =>
        simp only [fillDataRows, List.getD_cons_zero]
        have := overwriteRowAux_noFault_get r0 drow 0 trow c (by simpa using hc)
        simpa using this
      | succ j2 =>
        simp only [fillDataRows, List.getD_cons_succ]
        have hj2 : j2 < trest.length := by
          simp only [List.length_cons] at hj
          omega
        have hd2 : j2 < drest.length := by
          simp only [List.length_cons] at hd
          omega
        exact ih (r0 + 1) drest j2 c hj2 hd2 (by simpa using hc)

lemma fillDataRows_untouched (flt : CellFaults) :
    ∀ (r0 : Nat) (trows : List (List RichText)) (drows : List (List String))
      (j : Nat), drows.length ≤ j →
      ((fillDataRows flt r0 trows drows).1).getD j [] = trows.getD j [] := by
  intro r0 trows
  induction trows generalizing r0 with
  | nil => intro drows j _; cases drows <;> rfl
  | cons trow trest ih =>
    intro drows j hj
    cases drows with
    | nil => rfl
    | cons drow drest =>
      cases j with
      | zero =>
        simp only [List.length_cons] at hj
        omega
      | succ j2 =>
        simp only [fillDataRows, List.getD_cons_succ]
        apply ih
        simp only [List.length_cons] at hj
        omega

/-- C6: on a classified table with a supplied non-empty dataset (and
healthy cell writes), `classifyAndFill` keeps the header row, keeps the
data-row count, overwrites exactly the data rows `r` below
`min(existingDataRowCount, suppliedRowCount)` — writing
`suppliedRow[c]`, or the empty string where the supplied row is short,
into cell `(r+1, c)` — drops supplied rows beyond the table, and leaves
data rows beyond the supplied data exactly as they were. -/
theorem claim_C6 (t : TableShape) (ds : Datasets) (k : DatasetKind)
    (supplied : List (List String)) (header : List RichText)
    (dataRows : List (List RichText))
    (hk : classifyTable t = some k) (hds : datasetFor ds k = some supplied)
    (hne : supplied ≠ []) (hcells : t.cells = header :: dataRows) :
    (classifyAndFill (fun _ _ => false) t ds).1 = some k ∧
    ∃ filled : List (List RichText),
      ((classifyAndFill (fun _ _ => false) t ds).2.1).cells = header :: filled ∧
      filled.length = dataRows.length ∧
      (∀ r c, r < dataRows.length → r < supplied.length →
        c < (dataRows.getD r []).length →
        (filled.getD r []).getD c [] = mkCellRT ((supplied.getD r []).getD c "")) ∧
      (∀ r, supplied.length ≤ r → filled.getD r [] = dataRows.getD r []) := by
  cases supplied with
  | nil => exact absurd rfl hne
  | cons drow drest =>
    have hred : classifyAndFill (fun _ _ => false) t ds =
        (some k,
         ⟨header :: (fillDataRows (fun _ _ => false) 1 dataRows (drow :: drest)).1⟩,
         (fillDataRows (fun _ _ => false) 1 dataRows (drow :: drest)).2) := by
      unfold classifyAndFill
      simp only [hk, hds, hcells]
    rw [hred]
    refine ⟨rfl, (fillDataRows (fun _ _ => false) 1 dataRows (drow :: drest)).1,
      rfl, fillDataRows_length _ 1 dataRows (drow :: drest), ?_, ?_⟩
    · intro r c hr hs hc
      exact fillDataRows_noFault_cellVal 1 dataRows (drow :: drest) r c hr hs hc
    · intro r hr
      exact fillDataRows_untouched (fun _ _ => false) 1 dataRows (drow :: drest) r hr

/-- The table of the C6 witness: a milestone header and three data
rows, two columns. -/
def c6Table : TableShape :=
  ⟨[[mkCellRT "Milestone", mkCellRT "Baseline"],
    [mkCellRT "a1", mkCellRT "a2"],
    [mkCellRT "b1", mkCellRT "b2"],
    [mkCellRT "c1", mkCellRT "c2"]]⟩

/-- The datasets of the C6 witness: two supplied milestone rows, the
second shorter than the table's column count. -/
def c6Datasets : Datasets :=
  ⟨some [["M1", "01/01"], ["M2"]], none, none, none, none, none⟩

/-- C6 at the concrete table: rows 1-2 overwritten (short supplied row
padded with ""), row 3 untouched. -/
theorem claim_C6_witness :
    (classifyAndFill (fun _ _ => false) c6Table c6Datasets).1 =
      some DatasetKind.milestones ∧
    ∃ filled : List (List RichText),
      ((classifyAndFill (fun _ _ => false) c6Table c6Datasets).2.1).cells =
        [mkCellRT "Milestone", mkCellRT "Baseline"] :: filled ∧
      filled.length =
        ([[mkCellRT "a1", mkCellRT "a2"], [mkCellRT "b1", mkCellRT "b2"],
          [mkCellRT "c1", mkCellRT "c2"]] : List (List RichText)).length ∧
      (∀ r c,
        r < ([[mkCellRT "a1", mkCellRT "a2"], [mkCellRT "b1", mkCellRT "b2"],
          [mkCellRT "c1", mkCellRT "c2"]] : List (List RichText)).length →
        r < ([["M1", "01/01"], ["M2"]] : List (List String)).length →
        c < (([[mkCellRT "a1", mkCellRT "a2"], [mkCellRT "b1", mkCellRT "b2"],
          [mkCellRT "c1", mkCellRT "c2"]] : List (List RichText)).getD r []).length →
        (filled.getD r []).getD c [] =
          mkCellRT ((([["M1", "01/01"], ["M2"]] : List (List String)).getD r []).getD c "")) ∧
      (∀ r, ([["M1", "01/01"], ["M2"]] : List (List String)).length ≤ r →
        filled.getD r [] =
          ([[mkCellRT "a1", mkCellRT "a2"], [mkCellRT "b1", mkCellRT "b2"],
            [mkCellRT "c1", mkCellRT "c2"]] : List (List RichText)).getD r []) :=
  claim_C6 c6Table c6Datasets DatasetKind.milestones [["M1", "01/01"], ["M2"]]
    [mkCellRT "Milestone", mkCellRT "Baseline"]
    [[mkCellRT "a1", mkCellRT "a2"], [mkCellRT "b1", mkCellRT "b2"],
     [mkCellRT "c1", mkCellRT "c2"]]
    (by decide) (by decide) (by decide) (by decide)

/-- The table of the C8 example: a milestone header and two data rows. -/
def c8Table : TableShape :=
  ⟨[[mkCellRT "Milestone", mkCellRT "Baseline"],
    [mkCellRT "a1", mkCellRT "a2"],
    [mkCellRT "x1", mkCellRT "x2"]]⟩

/-- The datasets of the C8 example. -/
def c8Datasets : Datasets :=
  ⟨some [["M1", "01/01"], ["M2", "02/02"]], none, none, none, none, none⟩

/-- The fault pattern of the C8 example: every cell write on table
row 2 raises, everything else is healthy. -/
def c8Faults : Faults := ⟨fun r _ => r == 2, ⟨false, false, false⟩⟩

/-- C8: the orchestrator returns normally on every valid document,
mapping, image, dataset collection and per-element fault pattern
(per-element exceptions are swallowed, never propagated) and raises
exactly for the structural case of an invalid handle; concretely, with
every cell write of table row 2 raising, the merge still writes row 1,
keeps row 2 as it was, counts the two swallowed cell failures in the
report and completes with `ok`. -/
theorem claim_C8 :
    (∀ (d : Document) (m : Mapping) (img : Option Image) (ds : Datasets)
        (flt : Faults), ∃ out, merge (some d) m img ds flt = Except.ok out) ∧
    (∀ (m : Mapping) (img : Option Image) (ds : Datasets) (flt : Faults),
      merge none m img ds flt = Except.error MergeError.invalidHandle) ∧
    (merge (some [[Shape.table ⟨0, 0, 9, 9⟩ c8Table]]) [] none c8Datasets c8Faults).toOption =
      some
        ([[Shape.table ⟨0, 0, 9, 9⟩
            ⟨[[mkCellRT "Milestone", mkCellRT "Baseline"],
              [mkCellRT "M1", mkCellRT "01/01"],
              [mkCellRT "x1", mkCellRT "x2"]]⟩]],
         ⟨1, 0, 1, false, 2, 0, ∅⟩) := by
  refine ⟨?_, fun m img ds flt => rfl, by decide⟩
  intro d m img ds flt
  exact ⟨_, rfl⟩

end ZDeck
